import Mathlib

/-!
Verification of the streaming type schema and the event-aggregation engine of
the strands SDK (`src/strands/types/streaming.py`).

The Python source declares the wire shapes as `TypedDict`s.  A `TypedDict`
declared with `total=False` makes every one of its own keys optional, so each
such key is embedded as an `Option` field; a key whose Python value type is
`Optional[T]` may additionally hold `None`, embedded as a nested `Option`.
The outer `Option` is key presence, the inner one is an explicit `None` value.

Types imported by the source from sibling modules (`Role`, `StopReason`,
`Usage`, `Metrics`, `Trace`, `ContentBlockStart`) and the aggregation engine
itself are not part of the given source tree; they are modelled from the
specification and carry a `Modelled from the spec:` doc comment.
-/

namespace Strands

/-- A JSON-style value, for `additionalModelResponseFields`, whose Python type
is `Optional[Union[dict, list, int, float, str, bool, None]]`.  A Python float
carries no arithmetic here; it is embedded inertly as a decimal
mantissa/exponent pair. -/
inductive Json where
  | null : Json
  | boolean (b : Bool) : Json
  | intVal (i : Int) : Json
  | floatVal (mantissa : Int) (exponent : Int) : Json
  | str (s : String) : Json
  | arr (items : List Json) : Json
  | obj (fields : List (String × Json)) : Json

/-- Python `bytes`: a sequence of byte values. -/
abbrev Bytes := List Nat

/-- Modelled from the spec: `Role` is imported from `.content`, which is not in
the source tree.  The spec describes it as the enum of message senders,
`user` and `assistant`. -/
inductive Role where
  | user : Role
  | assistant : Role

/-- Modelled from the spec: `StopReason` is imported from `.event_loop`, which
is not in the source tree.  The spec's wire table gives `stopReason (string)`. -/
abbrev StopReason := String

/-- Modelled from the spec: `Usage` is imported from `.event_loop`, which is
not in the source tree.  The spec describes it as numeric token counters
(input/output/total tokens). -/
structure Usage where
  inputTokens : Nat
  outputTokens : Nat
  totalTokens : Nat

/-- Modelled from the spec: `Metrics` is imported from `.event_loop`, which is
not in the source tree.  The spec describes it as latency/performance numbers. -/
structure Metrics where
  latencyMs : Nat

/-- Modelled from the spec: `Trace` is imported from `.guardrails`, which is
not in the source tree.  The spec describes it as an opaque debug payload. -/
abbrev Trace := Json

/-- Modelled from the spec: `ContentBlockStart` is imported from `.content`,
which is not in the source tree.  The spec says the `start` descriptor declares
the block variant (text / toolUse / reasoningContent) and that a toolUse start
carries `toolUseId` and `name`, captured once. -/
inductive ContentBlockStart where
  | text : ContentBlockStart
  | toolUse (toolUseId : String) (name : String) : ContentBlockStart
  | reasoningContent : ContentBlockStart

/-- `MessageStartEvent(TypedDict)` — total, so `role` is a required key. -/
structure MessageStartEvent where
  role : Role

/-- `ContentBlockStartEvent(TypedDict, total=False)`:
`contentBlockIndex: Optional[int]`, `start: ContentBlockStart`.
Both keys are optional because of `total=False`. -/
structure ContentBlockStartEvent where
  contentBlockIndex : Option (Option Int)
  start : Option ContentBlockStart

/-- `ContentBlockDeltaText(TypedDict)`: `text: str`, required. -/
structure ContentBlockDeltaText where
  text : String

/-- `ContentBlockDeltaToolUse(TypedDict)`: `input: str`, required. -/
structure ContentBlockDeltaToolUse where
  input : String

/-- `ReasoningContentBlockDelta(TypedDict, total=False)`:
`redactedContent: Optional[bytes]`, `signature: Optional[str]`,
`text: Optional[str]` — every key optional, every value nullable. -/
structure ReasoningContentBlockDelta where
  redactedContent : Option (Option Bytes)
  signature : Option (Option String)
  text : Option (Option String)

/-- `ContentBlockDelta(TypedDict, total=False)`:
`reasoningContent: ReasoningContentBlockDelta`, `text: str`,
`toolUse: ContentBlockDeltaToolUse` — every key optional. -/
structure ContentBlockDelta where
  reasoningContent : Option ReasoningContentBlockDelta
  text : Option String
  toolUse : Option ContentBlockDeltaToolUse

/-- `ContentBlockDeltaEvent(TypedDict, total=False)`:
`contentBlockIndex: Optional[int]`, `delta: ContentBlockDelta`. -/
structure ContentBlockDeltaEvent where
  contentBlockIndex : Option (Option Int)
  delta : Option ContentBlockDelta

/-- `ContentBlockStopEvent(TypedDict, total=False)`:
`contentBlockIndex: Optional[int]`. -/
structure ContentBlockStopEvent where
  contentBlockIndex : Option (Option Int)

/-- `MessageStopEvent(TypedDict, total=False)`:
`additionalModelResponseFields: Optional[Union[dict, list, int, float, str, bool, None]]`,
`stopReason: StopReason` — both keys optional because of `total=False`. -/
structure MessageStopEvent where
  additionalModelResponseFields : Option (Option Json)
  stopReason : Option StopReason

/-- `MetadataEvent(TypedDict, total=False)`:
`metrics: Metrics`, `trace: Optional[Trace]`, `usage: Usage` — every key
optional because of `total=False`; only `trace` is additionally nullable. -/
structure MetadataEvent where
  metrics : Option Metrics
  trace : Option (Option Trace)
  usage : Option Usage

/-- `ExceptionEvent(TypedDict)`: `message: str`, required. -/
structure ExceptionEvent where
  message : String

/-- `ModelStreamErrorEvent(ExceptionEvent)`: inherits the required `message`
and adds the required `originalMessage: str` and `originalStatusCode: int`. -/
structure ModelStreamErrorEvent where
  message : String
  originalMessage : String
  originalStatusCode : Int

/-- `RedactContentEvent(TypedDict, total=False)`:
`redactUserContentMessage: Optional[str]`,
`redactAssistantContentMessage: Optional[str]`. -/
structure RedactContentEvent where
  redactUserContentMessage : Option (Option String)
  redactAssistantContentMessage : Option (Option String)

/-- `StreamEvent(TypedDict, total=False)` — the wire container: twelve keys,
all optional at the container level; the discriminated-union discipline
(exactly one key set) is validated by the decoder, not by the container. -/
structure StreamEvent where
  contentBlockDelta : Option ContentBlockDeltaEvent
  contentBlockStart : Option ContentBlockStartEvent
  contentBlockStop : Option ContentBlockStopEvent
  internalServerException : Option ExceptionEvent
  messageStart : Option MessageStartEvent
  messageStop : Option MessageStopEvent
  metadata : Option MetadataEvent
  redactContent : Option RedactContentEvent
  modelStreamErrorException : Option ModelStreamErrorEvent
  serviceUnavailableException : Option ExceptionEvent
  throttlingException : Option ExceptionEvent
  validationException : Option ExceptionEvent

/-- The decoded discriminated union: exactly one variant per event. -/
inductive DecodedEvent where
  | contentBlockDelta (e : ContentBlockDeltaEvent) : DecodedEvent
  | contentBlockStart (e : ContentBlockStartEvent) : DecodedEvent
  | contentBlockStop (e : ContentBlockStopEvent) : DecodedEvent
  | internalServerException (e : ExceptionEvent) : DecodedEvent
  | messageStart (e : MessageStartEvent) : DecodedEvent
  | messageStop (e : MessageStopEvent) : DecodedEvent
  | metadata (e : MetadataEvent) : DecodedEvent
  | redactContent (e : RedactContentEvent) : DecodedEvent
  | modelStreamErrorException (e : ModelStreamErrorEvent) : DecodedEvent
  | serviceUnavailableException (e : ExceptionEvent) : DecodedEvent
  | throttlingException (e : ExceptionEvent) : DecodedEvent
  | validationException (e : ExceptionEvent) : DecodedEvent

/-- The decoded variants present in one wire `StreamEvent`, in field order. -/
def StreamEvent.presentVariants (e : StreamEvent) : List DecodedEvent :=
  (e.contentBlockDelta.map DecodedEvent.contentBlockDelta).toList ++
  (e.contentBlockStart.map DecodedEvent.contentBlockStart).toList ++
  (e.contentBlockStop.map DecodedEvent.contentBlockStop).toList ++
  (e.internalServerException.map DecodedEvent.internalServerException).toList ++
  (e.messageStart.map DecodedEvent.messageStart).toList ++
  (e.messageStop.map DecodedEvent.messageStop).toList ++
  (e.metadata.map DecodedEvent.metadata).toList ++
  (e.redactContent.map DecodedEvent.redactContent).toList ++
  (e.modelStreamErrorException.map DecodedEvent.modelStreamErrorException).toList ++
  (e.serviceUnavailableException.map DecodedEvent.serviceUnavailableException).toList ++
  (e.throttlingException.map DecodedEvent.throttlingException).toList ++
  (e.validationException.map DecodedEvent.validationException).toList

/-- Keep a list exactly when it is a singleton. -/
def exactlyOne : List DecodedEvent → Option DecodedEvent
  | [d] => some d
  | _ => none

/-- Modelled from the spec: the decoder is an external collaborator, not in
the source tree.  Per the spec it must "validate the exactly-one-key invariant
explicitly at decode time": an event decodes only when exactly one of the
twelve variant keys is present, and is rejected otherwise. -/
def decode (e : StreamEvent) : Option DecodedEvent :=
  exactlyOne e.presentVariants

/-- The number of variant keys set on a wire `StreamEvent`. -/
def StreamEvent.tagCount (e : StreamEvent) : Nat :=
  e.contentBlockDelta.isSome.toNat +
  e.contentBlockStart.isSome.toNat +
  e.contentBlockStop.isSome.toNat +
  e.internalServerException.isSome.toNat +
  e.messageStart.isSome.toNat +
  e.messageStop.isSome.toNat +
  e.metadata.isSome.toNat +
  e.redactContent.isSome.toNat +
  e.modelStreamErrorException.isSome.toNat +
  e.serviceUnavailableException.isSome.toNat +
  e.throttlingException.isSome.toNat +
  e.validationException.isSome.toNat

/-- Modelled from the spec: a finalized content block (spec data model):
`text`, `toolUse` (raw concatenated input), or `reasoning` (the fields that
ever received data). -/
inductive ContentBlock where
  | text (value : String) : ContentBlock
  | toolUse (toolUseId : String) (name : String) (input : String) : ContentBlock
  | reasoning (text : Option String) (signature : Option String)
      (redactedContent : Option Bytes) : ContentBlock

/-- Modelled from the spec: the per-block accumulator of a
`ContentBlockAssembler` — a variant tag with a type-specific accumulator. -/
inductive Accumulator where
  | text (buffer : String) : Accumulator
  | toolUse (toolUseId : String) (name : String) (buffer : String) : Accumulator
  | reasoning (text : Option String) (signature : Option String)
      (redactedContent : Option Bytes) : Accumulator

/-- Modelled from the spec: creating an assembler for the variant declared in
the `start` descriptor. -/
def ContentBlockStart.initAccumulator : ContentBlockStart → Accumulator
  | .text => .text ""
  | .toolUse toolUseId name => .toolUse toolUseId name ""
  | .reasoningContent => .reasoning none none none

/-- Modelled from the spec: `finalize` returns the finished block; for
reasoning only the fields that ever received data are set. -/
def Accumulator.finalize : Accumulator → ContentBlock
  | .text buffer => .text buffer
  | .toolUse toolUseId name buffer => .toolUse toolUseId name buffer
  | .reasoning t sg rc => .reasoning t sg rc

/-- Modelled from the spec: `accumulate` merges one delta into the
accumulator.  A delta whose variant does not match the declared block type is
a type-mismatch error; text and toolUse input append; reasoning text and
redactedContent append, signature is overwritten but a second differing value
is a validation error. -/
def Accumulator.accumulate : Accumulator → ContentBlockDelta → Except String Accumulator
  | .text buffer, d =>
    match d.text, d.toolUse, d.reasoningContent with
    | some t, none, none => .ok (.text (buffer ++ t))
    | _, _, _ => .error "type-mismatch"
  | .toolUse toolUseId name buffer, d =>
    match d.text, d.toolUse, d.reasoningContent with
    | none, some tu, none => .ok (.toolUse toolUseId name (buffer ++ tu.input))
    | _, _, _ => .error "type-mismatch"
  | .reasoning t sg rc, d =>
    match d.text, d.toolUse, d.reasoningContent with
    | none, none, some r =>
      let t' := match r.text with
        | some (some tNew) => some (t.getD "" ++ tNew)
        | _ => t
      let rc' := match r.redactedContent with
        | some (some bNew) => some (rc.getD [] ++ bNew)
        | _ => rc
      match r.signature with
      | some (some sgNew) =>
        match sg with
        | some sgOld =>
          if sgOld = sgNew then .ok (.reasoning t' (some sgNew) rc')
          else .error "signature-conflict"
        | none => .ok (.reasoning t' (some sgNew) rc')
      | _ => .ok (.reasoning t' sg rc')
    | _, _, _ => .error "type-mismatch"

/-- Modelled from the spec: the error taxonomy's `ErrorKind` for classified
provider exceptions. -/
inductive ErrorKind where
  | internalServer : ErrorKind
  | modelStreamError : ErrorKind
  | serviceUnavailable : ErrorKind
  | throttling : ErrorKind
  | validation : ErrorKind

/-- Modelled from the spec: the classified error record produced by the
`ErrorClassifier` — kind, retryable hint, message, and for model-stream
errors the original message and status code. -/
structure ErrorEvent where
  kind : ErrorKind
  retryable : Bool
  message : String
  originalMessage : Option String
  originalStatusCode : Option Int

/-- Modelled from the spec: the retryable hint — `Throttling` and
`ServiceUnavailable` are retryable; the rest are not retryable by default. -/
def ErrorKind.retryableHint : ErrorKind → Bool
  | .throttling => true
  | .serviceUnavailable => true
  | .internalServer => false
  | .modelStreamError => false
  | .validation => false

/-- Modelled from the spec: the `ErrorClassifier` — a pure mapping from an
exception-kind event to a typed error; returns `none` on non-exception
events.  The kind is chosen by the wire tag; `ModelStreamError` additionally
carries `originalMessage` and `originalStatusCode`. -/
def classify : DecodedEvent → Option ErrorEvent
  | .internalServerException e =>
    some ⟨.internalServer, ErrorKind.retryableHint .internalServer, e.message, none, none⟩
  | .modelStreamErrorException e =>
    some ⟨.modelStreamError, ErrorKind.retryableHint .modelStreamError, e.message,
      some e.originalMessage, some e.originalStatusCode⟩
  | .serviceUnavailableException e =>
    some ⟨.serviceUnavailable, ErrorKind.retryableHint .serviceUnavailable, e.message, none, none⟩
  | .throttlingException e =>
    some ⟨.throttling, ErrorKind.retryableHint .throttling, e.message, none, none⟩
  | .validationException e =>
    some ⟨.validation, ErrorKind.retryableHint .validation, e.message, none, none⟩
  | _ => none

/-- Modelled from the spec: `MetricsCollector` state — running usage totals,
the latest metrics snapshot, and the last non-absent trace. -/
structure MetricsState where
  usage : Usage
  metrics : Option Metrics
  trace : Option Trace

/-- The empty collector state: all counters zero, no snapshot, no trace. -/
def MetricsState.init : MetricsState :=
  ⟨⟨0, 0, 0⟩, none, none⟩

/-- Componentwise sum of usage token counters. -/
def Usage.add (a b : Usage) : Usage :=
  ⟨a.inputTokens + b.inputTokens, a.outputTokens + b.outputTokens,
   a.totalTokens + b.totalTokens⟩

/-- Modelled from the spec: `MetricsCollector.merge` — usage counters are
summed across metadata events, metrics are last-write-wins, and the last
non-absent trace wins. -/
def MetricsState.merge (s : MetricsState) (e : MetadataEvent) : MetricsState :=
  { usage := match e.usage with
      | some u => s.usage.add u
      | none => s.usage
    metrics := match e.metrics with
      | some m => some m
      | none => s.metrics
    trace := match e.trace with
      | some (some t) => some t
      | _ => s.trace }

/-- Modelled from the spec: the finalized `Message` — role, ordered content,
stop reason and the optional extra response fields. -/
structure Message where
  role : Role
  content : List ContentBlock
  stopReason : Option StopReason
  additionalModelResponseFields : Option Json

/-- Modelled from the spec: one open content block owned by the aggregator —
its resolved index and its assembler's accumulator. -/
structure OpenBlock where
  index : Int
  acc : Accumulator

/-- Modelled from the spec: the aggregator's phase.  `messageOpen` carries the
role recorded by `messageStart`. -/
inductive AggPhase where
  | idle : AggPhase
  | messageOpen (role : Role) : AggPhase
  | closed : AggPhase
  | errored : AggPhase

/-- Modelled from the spec: the whole `EventAggregator` state — phase, the
content closed so far (append order = close order), the still-open blocks in
open order (most recently opened last), the next auto-assigned index, and the
metrics collector. -/
structure AggState where
  phase : AggPhase
  content : List ContentBlock
  openBlocks : List OpenBlock
  nextAutoIndex : Int
  collector : MetricsState

/-- The aggregator's initial state. -/
def AggState.initial : AggState :=
  ⟨.idle, [], [], 0, MetricsState.init⟩

/-- Modelled from the spec: the error taxonomy surfaced by `consume`. -/
inductive StreamError where
  | protocolViolation (reason : String) : StreamError
  | incompleteStream : StreamError
  | providerException (err : ErrorEvent) : StreamError
  | streamAlreadyTerminated : StreamError

/-- Modelled from the spec: the result of one `consume` call —
nothing, the final message, or an error. -/
inductive ConsumeOutput where
  | nothing : ConsumeOutput
  | finalMessage (m : Message) : ConsumeOutput
  | error (e : StreamError) : ConsumeOutput

/-- The index an incoming content-block event resolves to: the explicit index
when one is given, otherwise the most recently opened still-open block. -/
def AggState.resolveIndex (s : AggState) (idx : Option (Option Int)) : Option Int :=
  match idx with
  | some (some i) => some i
  | _ => (s.openBlocks.getLast?).map OpenBlock.index

/-- Modelled from the spec: `EventAggregator.consume` (spec section 4.1), one
decoded event at a time.  Idle accepts only `messageStart`; in `messageOpen`
content-block events drive the assemblers, metadata goes to the collector,
redaction replaces the content, exceptions classify and error the stream, and
`messageStop` finalizes — failing closed with `IncompleteStream` when any
block is still open.  Terminal phases reject with `StreamAlreadyTerminated`,
except metadata after `messageStop`, which still merges. -/
def AggState.consume (s : AggState) (d : DecodedEvent) : AggState × ConsumeOutput :=
  match s.phase with
  | .idle =>
    match d with
    | .messageStart e => ({ s with phase := .messageOpen e.role }, .nothing)
    | _ => ({ s with phase := .errored },
        .error (.protocolViolation "unexpected-event-order"))
  | .messageOpen role =>
    match d with
    | .messageStart _ => ({ s with phase := .errored },
        .error (.protocolViolation "unexpected-event-order"))
    | .contentBlockStart e =>
      match e.start with
      | none => ({ s with phase := .errored },
          .error (.protocolViolation "missing-start-descriptor"))
      | some st =>
        match e.contentBlockIndex with
        | some (some i) =>
          if s.openBlocks.any (fun b => b.index = i) then
            ({ s with phase := .errored },
             .error (.protocolViolation "duplicate-index"))
          else
            ({ s with openBlocks := s.openBlocks ++ [⟨i, st.initAccumulator⟩] },
             .nothing)
        | _ =>
          let i := s.nextAutoIndex
          if s.openBlocks.any (fun b => b.index = i) then
            ({ s with phase := .errored },
             .error (.protocolViolation "duplicate-index"))
          else
            ({ s with openBlocks := s.openBlocks ++ [⟨i, st.initAccumulator⟩],
                      nextAutoIndex := i + 1 },
             .nothing)
    | .contentBlockDelta e =>
      match s.resolveIndex e.contentBlockIndex with
      | none => ({ s with phase := .errored },
          .error (.protocolViolation "delta-without-start"))
      | some i =>
        match s.openBlocks.find? (fun b => b.index = i) with
        | none => ({ s with phase := .errored },
            .error (.protocolViolation "delta-without-start"))
        | some b =>
          match e.delta with
          | none => ({ s with phase := .errored },
              .error (.protocolViolation "missing-delta"))
          | some delta =>
            match b.acc.accumulate delta with
            | .error reason => ({ s with phase := .errored },
                .error (.protocolViolation reason))
            | .ok acc' =>
              ({ s with openBlocks := (s.openBlocks.map
                  (fun ob => if ob.index = i then ⟨i, acc'⟩ else ob)) },
               .nothing)
    | .contentBlockStop e =>
      match s.resolveIndex e.contentBlockIndex with
      | none => ({ s with phase := .errored },
          .error (.protocolViolation "stop-without-start"))
      | some i =>
        match s.openBlocks.find? (fun b => b.index = i) with
        | none => ({ s with phase := .errored },
            .error (.protocolViolation "stop-without-start"))
        | some b =>
          ({ s with content := s.content ++ [b.acc.finalize],
                    openBlocks := s.openBlocks.filter (fun ob => ob.index ≠ i) },
           .nothing)
    | .metadata e => ({ s with collector := s.collector.merge e }, .nothing)
    | .redactContent e =>
      let placeholder := match role with
        | .user => match e.redactUserContentMessage with
          | some (some m) => m
          | _ => ""
        | .assistant => match e.redactAssistantContentMessage with
          | some (some m) => m
          | _ => ""
      ({ s with content := [.text placeholder], openBlocks := [] }, .nothing)
    | .messageStop e =>
      if s.openBlocks.isEmpty then
        ({ s with phase := .closed },
         .finalMessage ⟨role, s.content, e.stopReason,
           match e.additionalModelResponseFields with
           | some (some j) => some j
           | _ => none⟩)
      else
        ({ s with phase := .errored }, .error .incompleteStream)
    | other =>
      match classify other with
      | some err => ({ s with phase := .errored }, .error (.providerException err))
      | none => ({ s with phase := .errored },
          .error (.protocolViolation "unexpected-event-order"))
  | .closed =>
    match d with
    | .metadata e => ({ s with collector := s.collector.merge e }, .nothing)
    | _ => (s, .error .streamAlreadyTerminated)
  | .errored => (s, .error .streamAlreadyTerminated)

/-- Feed a list of decoded events to the aggregator, stopping at the first
call that produces an output other than `nothing` (fail-fast). -/
def AggState.consumeList (s : AggState) : List DecodedEvent → AggState × ConsumeOutput
  | [] => (s, .nothing)
  | d :: ds =>
    match s.consume d with
    | (s', .nothing) => s'.consumeList ds
    | (s', out) => (s', out)

/-- The number of variant keys set on a wire `ContentBlockDelta`. -/
def ContentBlockDelta.variantCount (d : ContentBlockDelta) : Nat :=
  d.reasoningContent.isSome.toNat + d.text.isSome.toNat + d.toolUse.isSome.toNat

/-- Merge a whole stream's metadata events into one collector state. -/
def mergeAll (events : List MetadataEvent) : MetricsState :=
  events.foldl MetricsState.merge MetricsState.init

/-- The finalized blocks of the open blocks `bs`, listed in the order given by
the index list `ids` (the close order), each looked up by its index. -/
def closeOrderContent (bs : List OpenBlock) (ids : List Int) : List ContentBlock :=
  ids.filterMap (fun i =>
    (bs.find? (fun b => b.index = i)).map (fun b => b.acc.finalize))

/-- A sample metadata event: latency 7, usage 10 input / 1 output / 11 total. -/
def mdEventA : MetadataEvent := ⟨some ⟨7⟩, none, some ⟨10, 1, 11⟩⟩

/-- A sample metadata event: latency 9, usage 5 input / 2 output / 7 total. -/
def mdEventB : MetadataEvent := ⟨some ⟨9⟩, none, some ⟨5, 2, 7⟩⟩

end Strands

namespace Strands

theorem toList_length_map_eq {α β : Type} (o : Option α) (f : α → β) :
    ((o.map f).toList).length = o.isSome.toNat := by
  cases o <;> rfl

theorem exactlyOne_isSome_iff (l : List DecodedEvent) :
    (exactlyOne l).isSome ↔ l.length = 1 := by
  cases l with
  | nil => simp [exactlyOne]
  | cons a t =>
    cases t with
    | nil => simp [exactlyOne]
    | cons b t' => simp [exactlyOne]

theorem presentVariants_length (e : StreamEvent) :
    e.presentVariants.length = e.tagCount := by
  simp [StreamEvent.presentVariants, StreamEvent.tagCount, toList_length_map_eq]
  omega

/-- Claim C1: a wire `StreamEvent` decodes successfully exactly when exactly
one of the twelve variant keys is present; the decoder rejects any event with
zero keys or more than one key set. -/
theorem decode_isSome_iff_exactly_one_tag (e : StreamEvent) :
    (decode e).isSome ↔ e.tagCount = 1 := by
  rw [decode, exactlyOne_isSome_iff, presentVariants_length]

/-- Claim C5: for every exception event the classifier accepts, the attached
retryable hint is true if and only if the classified kind is `throttling` or
`serviceUnavailable`. -/
theorem classified_retryable_iff_transient
    (d : DecodedEvent) (err : ErrorEvent) (h : classify d = some err) :
    err.retryable = true ↔
      (err.kind = ErrorKind.throttling ∨ err.kind = ErrorKind.serviceUnavailable) := by
  cases d <;> simp [classify] at h <;> subst h <;>
    simp [ErrorKind.retryableHint]

/-- Witness for claim C5 at the spec's scenario B input: a throttling
exception with message "rate limited". -/
theorem classified_retryable_iff_transient_witness :
    (⟨ErrorKind.throttling, true, "rate limited", none, none⟩ : ErrorEvent).retryable = true ↔
      ((⟨ErrorKind.throttling, true, "rate limited", none, none⟩ : ErrorEvent).kind =
          ErrorKind.throttling ∨
       (⟨ErrorKind.throttling, true, "rate limited", none, none⟩ : ErrorEvent).kind =
          ErrorKind.serviceUnavailable) :=
  classified_retryable_iff_transient
    (.throttlingException ⟨"rate limited"⟩) _ rfl

/-- Claim C10: the four simple exception tags all carry the same payload type
`ExceptionEvent` (the statement feeds one and the same payload to all four
tags, which typechecks precisely because the payload types are structurally
identical), and the classified kind is a constant of the wire tag alone —
for every payload the kind is fixed by the tag. -/
theorem exception_kind_determined_by_tag (e : ExceptionEvent) :
    (classify (.internalServerException e)).map ErrorEvent.kind =
        some ErrorKind.internalServer ∧
    (classify (.serviceUnavailableException e)).map ErrorEvent.kind =
        some ErrorKind.serviceUnavailable ∧
    (classify (.throttlingException e)).map ErrorEvent.kind =
        some ErrorKind.throttling ∧
    (classify (.validationException e)).map ErrorEvent.kind =
        some ErrorKind.validation :=
  ⟨rfl, rfl, rfl, rfl⟩

/-- Claim C3: when `messageStop` arrives while at least one content-block
assembler is still open, `consume` produces the `incompleteStream` error and
moves to the errored phase — it never returns a message holding the partially
accumulated content. -/
theorem messageStop_with_open_blocks_incomplete
    (role : Role) (content : List ContentBlock) (bs : List OpenBlock)
    (auto : Int) (col : MetricsState) (e : MessageStopEvent) (h : bs ≠ []) :
    AggState.consume ⟨.messageOpen role, content, bs, auto, col⟩ (.messageStop e) =
      (⟨.errored, content, bs, auto, col⟩, .error .incompleteStream) := by
  cases bs with
  | nil => exact absurd rfl h
  | cons b t => rfl

/-- Witness for claim C3: one open text block at index 0 when the stop
arrives. -/
theorem messageStop_with_open_blocks_incomplete_witness :
    AggState.consume
        ⟨.messageOpen .assistant, [], [⟨0, .text "Hel"⟩], 1, MetricsState.init⟩
        (.messageStop ⟨none, some "end_turn"⟩) =
      (⟨.errored, [], [⟨0, .text "Hel"⟩], 1, MetricsState.init⟩,
       .error .incompleteStream) :=
  messageStop_with_open_blocks_incomplete .assistant [] [⟨0, .text "Hel"⟩] 1
    MetricsState.init ⟨none, some "end_turn"⟩ (by simp)

theorem find?_filter_of_imp {α : Type} (l : List α) (p q : α → Bool)
    (h : ∀ x, p x = true → q x = true) :
    (l.filter q).find? p = l.find? p := by
  induction l with
  | nil => rfl
  | cons a t ih =>
    cases hq : q a with
    | true =>
      cases hp : p a with
      | true => simp [List.filter_cons, hq, List.find?_cons, hp]
      | false => simp [List.filter_cons, hq, List.find?_cons, hp, ih]
    | false =>
      have hp : p a = false := by
        cases hpa : p a with
        | true => rw [h a hpa] at hq; exact absurd hq (by simp)
        | false => rfl
      simp [List.filter_cons, hq, List.find?_cons, hp, ih]

theorem map_index_filter (bs : List OpenBlock) (i : Int) :
    (bs.filter (fun ob => ob.index ≠ i)).map OpenBlock.index =
      (bs.map OpenBlock.index).filter (fun x => x ≠ i) := by
  induction bs with
  | nil => rfl
  | cons b t ih =>
    simp only [ne_eq, decide_not] at ih ⊢
    by_cases hb : b.index = i
    · simp [List.filter_cons, hb, ih]
    · simp [List.filter_cons, hb, ih]

theorem nodup_erase_eq_filter (l : List Int) (i : Int) (h : l.Nodup) :
    l.erase i = l.filter (fun x => x ≠ i) := by
  rw [h.erase_eq_filter]
  apply List.filter_congr
  intro x _
  simp [bne, Bool.beq_eq_decide_eq]

theorem closeOrderContent_cons_of_fresh (bs : List OpenBlock) (i : Int)
    (rest : List Int) (b₀ : OpenBlock)
    (hfind : bs.find? (fun b => b.index = i) = some b₀)
    (hrest : ∀ j ∈ rest, j ≠ i) :
    closeOrderContent bs (i :: rest) =
      b₀.acc.finalize ::
        closeOrderContent (bs.filter (fun ob => ob.index ≠ i)) rest := by
  rw [closeOrderContent, List.filterMap_cons, hfind]
  simp only [Option.map_some']
  rw [closeOrderContent]
  congr 1
  apply List.filterMap_congr
  intro j hj
  rw [find?_filter_of_imp]
  intro x hx
  simp only [decide_eq_true_eq] at hx
  simp [hx, hrest j hj]

/-- Claim C2: from any aggregator state in the message-open phase — the open
blocks `bs` hold the accumulations in whatever order the blocks were opened —
closing all blocks in any order `ids` and then stopping the message yields a
final message whose content extends the already-closed content by the
finalized blocks in exactly the close order `ids`, regardless of the order in
which the blocks were opened. -/
theorem content_order_is_close_order
    (role : Role) (content₀ : List ContentBlock) (bs : List OpenBlock)
    (auto : Int) (col : MetricsState) (ids : List Int) (mse : MessageStopEvent)
    (hnodup : (bs.map OpenBlock.index).Nodup)
    (hperm : ids.Perm (bs.map OpenBlock.index)) :
    ∃ m : Message,
      (AggState.consumeList ⟨.messageOpen role, content₀, bs, auto, col⟩
        (ids.map (fun i => DecodedEvent.contentBlockStop ⟨some (some i)⟩) ++
         [DecodedEvent.messageStop mse])).2 = .finalMessage m ∧
      m.content = content₀ ++ closeOrderContent bs ids := by
  induction ids generalizing bs content₀ with
  | nil =>
    have hmap : bs.map OpenBlock.index = [] := hperm.symm.eq_nil
    have hbs : bs = [] := List.map_eq_nil_iff.mp hmap
    subst hbs
    exact ⟨_, rfl, by simp [closeOrderContent]⟩
  | cons i rest ih =>
    have hidnodup : (i :: rest).Nodup := hnodup.perm hperm.symm
    have hrest : ∀ j ∈ rest, j ≠ i := by
      intro j hj hji
      subst hji
      exact (List.nodup_cons.mp hidnodup).1 hj
    have hmem : i ∈ bs.map OpenBlock.index := hperm.subset (List.mem_cons_self i rest)
    obtain ⟨b₀, hfind⟩ : ∃ b₀, bs.find? (fun b => b.index = i) = some b₀ := by
      apply Option.isSome_iff_exists.mp
      rw [List.find?_isSome]
      obtain ⟨b, hb, hbi⟩ := List.mem_map.mp hmem
      exact ⟨b, hb, by simp [hbi]⟩
    have hcons : AggState.consume ⟨.messageOpen role, content₀, bs, auto, col⟩
        (.contentBlockStop ⟨some (some i)⟩) =
        (⟨.messageOpen role, content₀ ++ [b₀.acc.finalize],
          bs.filter (fun ob => ob.index ≠ i), auto, col⟩, .nothing) := by
      simp [AggState.consume, AggState.resolveIndex, hfind]
    have hnodup' : ((bs.filter (fun ob => ob.index ≠ i)).map OpenBlock.index).Nodup := by
      rw [map_index_filter]
      exact hnodup.filter _
    have hperm' : rest.Perm ((bs.filter (fun ob => ob.index ≠ i)).map OpenBlock.index) := by
      rw [map_index_filter, ← nodup_erase_eq_filter _ _ hnodup]
      exact (List.cons_perm_iff_perm_erase.mp hperm).2
    obtain ⟨m, hm1, hm2⟩ := ih (content₀ ++ [b₀.acc.finalize])
      (bs.filter (fun ob => ob.index ≠ i)) hnodup' hperm'
    refine ⟨m, ?_, ?_⟩
    · rw [List.map_cons, List.cons_append, AggState.consumeList, hcons]
      exact hm1
    · rw [hm2, closeOrderContent_cons_of_fresh bs i rest b₀ hfind hrest,
        List.append_assoc]
      rfl

/-- Witness for claim C2: two blocks opened in index order 0 then 1, closed in
the reverse order 1 then 0 — the message content lists block 1's text before
block 0's. -/
theorem content_order_is_close_order_witness :
    ∃ m : Message,
      (AggState.consumeList
        ⟨.messageOpen .assistant, [], [⟨0, .text "A"⟩, ⟨1, .text "B"⟩], 2,
         MetricsState.init⟩
        (([1, 0] : List Int).map
          (fun i => DecodedEvent.contentBlockStop ⟨some (some i)⟩) ++
         [DecodedEvent.messageStop ⟨none, some "end_turn"⟩])).2 =
        .finalMessage m ∧
      m.content = [] ++ closeOrderContent [⟨0, .text "A"⟩, ⟨1, .text "B"⟩] [1, 0] :=
  content_order_is_close_order .assistant [] [⟨0, .text "A"⟩, ⟨1, .text "B"⟩] 2
    MetricsState.init [1, 0] ⟨none, some "end_turn"⟩ (by decide) (by decide)

/-- Counterexample to claim C6 as stated: the `MessageStopEvent` TypedDict is
declared `total=False`, so the event with no keys at all is a value of the
declared type — `stopReason` is not required. -/
theorem messageStop_stopReason_not_required :
    ¬ (∀ e : MessageStopEvent, e.stopReason.isSome = true) := by
  intro h
  simpa using h ⟨none, none⟩

/-- Claim C6 as amended: in `MessageStopEvent` both keys are optional
(`total=False`); `additionalModelResponseFields`, when present, may hold any
JSON scalar, object, array, or null. -/
theorem messageStop_fields_optional :
    ((⟨none, none⟩ : MessageStopEvent).stopReason = none ∧
     (⟨none, none⟩ : MessageStopEvent).additionalModelResponseFields = none) ∧
    ∀ j : Json, ∃ e : MessageStopEvent,
      e.additionalModelResponseFields = some (some j) ∧
      e.stopReason = some "end_turn" :=
  ⟨⟨rfl, rfl⟩, fun j => ⟨⟨some (some j), some "end_turn"⟩, rfl, rfl⟩⟩

/-- Counterexample to claim C7 as stated: the `MetadataEvent` TypedDict is
declared `total=False`, so the empty event is a value of the declared type —
`metrics` and `usage` are not required. -/
theorem metadata_metrics_usage_not_required :
    ¬ (∀ e : MetadataEvent, e.metrics.isSome = true ∧ e.usage.isSome = true) := by
  intro h
  simpa using h ⟨none, none, none⟩

/-- Claim C7 as amended: in `MetadataEvent` all three keys — `metrics`,
`trace` and `usage` — are optional (`total=False`); any combination of
present keys is a value of the declared type. -/
theorem metadata_all_fields_optional
    (m : Option Metrics) (t : Option (Option Trace)) (u : Option Usage) :
    ∃ e : MetadataEvent, e.metrics = m ∧ e.trace = t ∧ e.usage = u :=
  ⟨⟨m, t, u⟩, rfl, rfl, rfl⟩

/-- Counterexample to claim C8 as stated: the `ContentBlockDelta` TypedDict is
declared `total=False`, so the delta with zero variant keys is a value of the
declared type; exactly-one is not enforced by the declaration. -/
theorem contentBlockDelta_not_exactly_one_variant :
    ¬ (∀ d : ContentBlockDelta, d.variantCount = 1) := by
  intro h
  simpa [ContentBlockDelta.variantCount] using h ⟨none, none, none⟩

/-- Claim C8 as amended: the declared `ContentBlockDelta` type permits every
combination of the three variant keys — including zero keys and several keys
at once; the at-most-one-matching-variant discipline is enforced downstream by
the assembler, not by the payload declaration. -/
theorem contentBlockDelta_any_variant_combination (b₁ b₂ b₃ : Bool) :
    ∃ d : ContentBlockDelta,
      d.reasoningContent.isSome = b₁ ∧ d.text.isSome = b₂ ∧ d.toolUse.isSome = b₃ := by
  refine ⟨⟨if b₁ then some ⟨none, none, none⟩ else none,
          if b₂ then some "" else none,
          if b₃ then some ⟨""⟩ else none⟩, ?_, ?_, ?_⟩ <;>
    cases b₁ <;> cases b₂ <;> cases b₃ <;> rfl

/-- Counterexample to claim C9 as stated: the `ContentBlockStartEvent`
TypedDict is declared `total=False` and its index type is plain `int`, so the
event with `contentBlockIndex = -1` and no `start` key is a value of the
declared type — `start` is not required and the index is not constrained to be
non-negative. -/
theorem contentBlockStart_start_not_required :
    ¬ (∀ e : ContentBlockStartEvent, e.start.isSome = true ∧
        ∀ i : Int, e.contentBlockIndex = some (some i) → 0 ≤ i) := by
  intro h
  have h2 := h ⟨some (some (-1)), none⟩
  have h3 : (0 : Int) ≤ -1 := h2.2 (-1) rfl
  simp at h3

theorem merge_usage_eq (s : MetricsState) (e : MetadataEvent) :
    (s.merge e).usage = s.usage.add (e.usage.getD ⟨0, 0, 0⟩) := by
  cases h : e.usage with
  | some u => simp [MetricsState.merge, h]
  | none => simp [MetricsState.merge, h, Usage.add]

theorem foldl_merge_usage (events : List MetadataEvent) (init : MetricsState) :
    (events.foldl MetricsState.merge init).usage =
      events.foldl (fun u e => u.add (e.usage.getD ⟨0, 0, 0⟩)) init.usage := by
  induction events generalizing init with
  | nil => rfl
  | cons e tl ih => simp [List.foldl_cons, ih, merge_usage_eq]

theorem foldl_add_inputTokens (events : List MetadataEvent) (u0 : Usage) :
    (events.foldl (fun u e => u.add (e.usage.getD ⟨0, 0, 0⟩)) u0).inputTokens =
      u0.inputTokens +
        (events.map (fun e => (e.usage.getD ⟨0, 0, 0⟩).inputTokens)).sum := by
  induction events generalizing u0 with
  | nil => simp
  | cons e tl ih =>
    rw [List.foldl_cons, ih]
    simp [Usage.add]
    omega

theorem foldl_add_outputTokens (events : List MetadataEvent) (u0 : Usage) :
    (events.foldl (fun u e => u.add (e.usage.getD ⟨0, 0, 0⟩)) u0).outputTokens =
      u0.outputTokens +
        (events.map (fun e => (e.usage.getD ⟨0, 0, 0⟩).outputTokens)).sum := by
  induction events generalizing u0 with
  | nil => simp
  | cons e tl ih =>
    rw [List.foldl_cons, ih]
    simp [Usage.add]
    omega

theorem foldl_add_totalTokens (events : List MetadataEvent) (u0 : Usage) :
    (events.foldl (fun u e => u.add (e.usage.getD ⟨0, 0, 0⟩)) u0).totalTokens =
      u0.totalTokens +
        (events.map (fun e => (e.usage.getD ⟨0, 0, 0⟩).totalTokens)).sum := by
  induction events generalizing u0 with
  | nil => simp
  | cons e tl ih =>
    rw [List.foldl_cons, ih]
    simp [Usage.add]
    omega

theorem foldl_merge_append_metrics (es : List MetadataEvent)
    (last : MetadataEvent) (init : MetricsState)
    (h : last.metrics.isSome = true) :
    ((es ++ [last]).foldl MetricsState.merge init).metrics = last.metrics := by
  rw [List.foldl_append]
  cases hm : last.metrics with
  | some m => simp [List.foldl_cons, MetricsState.merge, hm]
  | none => rw [hm] at h; simp at h

/-- Claim C4: over a whole stream of well-formed metadata events, each merged
usage token counter is the sum of that counter across all events, whereas the
merged metrics snapshot is the one from the last event received
(last-write-wins). -/
theorem mergeAll_usage_summed_metrics_last (events : List MetadataEvent)
    (h : ∀ e ∈ events, e.usage.isSome = true ∧ e.metrics.isSome = true) :
    (mergeAll events).usage.inputTokens =
      (events.map (fun e => (e.usage.getD ⟨0, 0, 0⟩).inputTokens)).sum ∧
    (mergeAll events).usage.outputTokens =
      (events.map (fun e => (e.usage.getD ⟨0, 0, 0⟩).outputTokens)).sum ∧
    (mergeAll events).usage.totalTokens =
      (events.map (fun e => (e.usage.getD ⟨0, 0, 0⟩).totalTokens)).sum ∧
    ∀ (es : List MetadataEvent) (last : MetadataEvent), events = es ++ [last] →
      (mergeAll events).metrics = last.metrics := by
  refine ⟨?_, ?_, ?_, ?_⟩
  · rw [mergeAll, foldl_merge_usage, foldl_add_inputTokens]
    simp [MetricsState.init]
  · rw [mergeAll, foldl_merge_usage, foldl_add_outputTokens]
    simp [MetricsState.init]
  · rw [mergeAll, foldl_merge_usage, foldl_add_totalTokens]
    simp [MetricsState.init]
  · intro es last hevents
    have hl : last.metrics.isSome = true := (h last (by simp [hevents])).2
    rw [mergeAll, hevents, foldl_merge_append_metrics _ _ _ hl]

/-- Witness for claim C4 at the spec's sum-law example: usage input tokens 10
then 5 merge to 15, and the metrics of the second event win. -/
theorem mergeAll_usage_summed_metrics_last_witness :
    (mergeAll [mdEventA, mdEventB]).usage.inputTokens = 15 ∧
    (mergeAll [mdEventA, mdEventB]).metrics = some ⟨9⟩ := by
  have h := mergeAll_usage_summed_metrics_last [mdEventA, mdEventB] (by decide)
  refine ⟨h.1.trans (by decide), ?_⟩
  rw [h.2.2.2 [mdEventA] mdEventB rfl]
  rfl

/-- Claim C9 as amended: in `ContentBlockStartEvent` both keys are optional
(`total=False`), and `contentBlockIndex` is an optional integer with no
non-negativity constraint in the declaration. -/
theorem contentBlockStart_fields_optional
    (i : Option (Option Int)) (st : Option ContentBlockStart) :
    ∃ e : ContentBlockStartEvent, e.contentBlockIndex = i ∧ e.start = st :=
  ⟨⟨i, st⟩, rfl, rfl⟩

end Strands
